import Mathlib

/-!
# Zodipus Query Engine — verification of the spec against the source

Shallow embedding of `src/packages/zodipus/src/queryEngine.ts`
(`createRegistry` and the executor it returns: query compilation,
`parse` / `safeParse` / `array()` forms), over a model of JavaScript
values, followed by theorems settling the claims about it.
-/

namespace Zodipus

/-- Model of a JavaScript runtime value as the engine observes it.
`obj` is the ordered own-property list of a plain object; property keys
are unique in any value produced by a JS program. There is no
`undefined` constructor: the engine only ever reads properties it first
checked with `in`, and data-store results never carry `undefined`. -/
inductive JValue where
  | null
  | bool (b : Bool)
  | num (n : Int)
  | str (s : String)
  | arr (elems : List JValue)
  | obj (fields : List (String × JValue))

/-- `typeof item === 'object'` — true for plain objects and arrays
(JS arrays have `typeof` `'object'`), false for primitives and `null`
(the source excludes `null` explicitly alongside the `typeof` test). -/
def isObjectLike : JValue → Bool
  | .arr _ => true
  | .obj _ => true
  | _ => false

/-- The `received` string the source reports:
`item === null ? 'null' : typeof item`. -/
def receivedName : JValue → String
  | .null => "null"
  | .bool _ => "boolean"
  | .num _ => "number"
  | .str _ => "string"
  | .arr _ => "object"
  | .obj _ => "object"

/-- A string is a canonical array index (`'0'`, `'7'`, …) — the only
string keys that `key in arr` / `arr[key]` resolve on a JS array. -/
def canonicalIndex (s : String) : Option Nat :=
  match s.toNat? with
  | some n => if toString n = s then some n else none
  | none => none

/-- Key lookup in an ordered own-property list (record access by key;
keys are unique in any list a JS program builds, so first match is the
binding). -/
def lookupKey {α : Type} : List (String × α) → String → Option α
  | [], _ => none
  | (k, v) :: rest, key => if key = k then some v else lookupKey rest key

/-- Property read `item[key]`, `none` when `!(key in item)`. -/
def jGet : JValue → String → Option JValue
  | .obj fs, k => lookupKey fs k
  | .arr xs, k => (canonicalIndex k).bind fun i => xs.get? i
  | _, _ => none

/-- `key in item`. -/
def jHas (v : JValue) (k : String) : Bool :=
  (jGet v k).isSome

/-- Property write on an own-property list: an existing key is updated
in place (JS keeps its position), a new key is appended. -/
def setFields (fs : List (String × JValue)) (k : String) (v : JValue) :
    List (String × JValue) :=
  if fs.any (fun p => p.1 = k) then
    fs.map (fun p => if p.1 = k then (k, v) else p)
  else
    fs ++ [(k, v)]

/-- Property assignment `target[key] = v`. The engine only assigns keys
it found via `key in item` on an object, so the array arms (writes to an
existing index, otherwise no-op) are unreachable for relation-name keys,
which are identifiers, never canonical indices. -/
def jSet : JValue → String → JValue → JValue
  | .obj fs, k, v => .obj (setFields fs k v)
  | .arr xs, k, v =>
      match canonicalIndex k with
      | some i => .arr (xs.set i v)
      | none => .arr xs
  | x, _, _ => x

/-- Errors thrown by the engine (`ZodipusValidationError` instances plus
the opaque failures a Zod model schema may raise). Only the context
fields the source actually populates are modelled. -/
inductive ZErr where
  /-- `Invalid data for model "…"` with `{model, expected: 'object', received}`. -/
  | invalidData (model : String) (received : String)
  /-- `Model schema not found` with `{model}`. -/
  | schemaNotFound (model : String)
  /-- `Model schema not found for relation` with `{model, field, path}`. -/
  | relationSchemaNotFound (model : String) (field : String) (path : List String)
  /-- An opaque rejection raised by a Zod schema's own `parse`. -/
  | schemaReject (detail : String)
deriving DecidableEq, Repr

/-- A model schema as the engine uses it: `schema.parse(raw)` either
throws or returns the (possibly transformed — Zod strips undeclared
keys) parsed value. -/
def Validator : Type := JValue → Except ZErr JValue

/-- `RelationConfig`: `{ type, isArray, relations? }`. Inductive because
`relations` nests recursively; an absent `relations` is the empty list,
which the engine never distinguishes from `{}` (it only ever reads
`.type`). -/
inductive RelationConfig where
  | mk (type : String) (isArray : Bool) (relations : List (String × RelationConfig))

/-- The relation's target model name (`config.relations[model][key].type`). -/
def RelationConfig.type : RelationConfig → String
  | .mk t _ _ => t

/-- The relation's declared cardinality (`isArray`); never read by the
runtime parser, only by the static types. -/
def RelationConfig.isArray : RelationConfig → Bool
  | .mk _ a _ => a

/-- The `config` argument of `createRegistry`: `models` is the
`ModelRegistry` record (entity name → Zod schema) and `relations` the
`ModelRelations` record (entity name → relation name → config), both as
ordered own-property lists looked up by key. -/
structure RegistryConfig where
  models : List (String × Validator)
  relations : List (String × List (String × RelationConfig))

/-- A relation's value inside a query object
(`RelationQueryValue`): `boolean | { select: … } | { include: … }`. -/
inductive RelSpec where
  | bool (b : Bool)
  | select (fields : List (String × Bool))
  | include_ (entries : List (String × RelSpec))

/-- The query object handed to the builder: the optional `select`
own-property (an object of booleans — possibly empty, and truthy in JS
even when empty) plus the remaining own-properties, the relation
entries, in insertion order. -/
structure Query where
  select : Option (List (String × Bool)) := none
  rels : List (String × RelSpec) := []

/-- `hasSelect = 'select' in query && query.select` — any present
`select` value is an object per the static types, and every JS object
(including `{}`) is truthy. -/
def hasSelect (q : Query) : Bool :=
  q.select.isSome

/-- The compiled query the executor exposes: exactly one of
`{ select: … }` or `{ include: … }`. Scalar field picks appear as
`RelSpec.bool`; relation entries are the spec values copied verbatim. -/
inductive CompiledQuery where
  | select (entries : List (String × RelSpec))
  | include_ (entries : List (String × RelSpec))

/-- The property list under whichever tag the compiled query carries. -/
def CompiledQuery.entries : CompiledQuery → List (String × RelSpec)
  | .select es => es
  | .include_ es => es

/-- Whether the compiled query's top-level tag is `select`. -/
def CompiledQuery.isSelect : CompiledQuery → Bool
  | .select _ => true
  | .include_ _ => false

/-- The declared scalar-field picks of `query.select ?? {}`, as compiled
map entries. -/
def selectEntries (q : Query) : List (String × RelSpec) :=
  (q.select.getD []).map (fun p => (p.1, RelSpec.bool p.2))

/-- `Object.entries(query).filter(([key]) => key !== 'select')`. -/
def dropSelectKey : List (String × RelSpec) → List (String × RelSpec)
  | [] => []
  | p :: rest =>
      if p.1 = "select" then dropSelectKey rest else p :: dropSelectKey rest

/-- `Object.fromEntries(Object.entries(query).filter(([key]) => key !== 'select'))`. -/
def relationEntries (q : Query) : List (String × RelSpec) :=
  dropSelectKey q.rels

/-- JS object spread `{...a, ...b}`: all of `a`'s properties in order,
except that a key also bound in `b` takes `b`'s value at `b`'s
position. -/
def spread : List (String × RelSpec) → List (String × RelSpec) → List (String × RelSpec)
  | [], b => b
  | p :: rest, b =>
      match lookupKey b p.1 with
      | none => p :: spread rest b
      | some _ => spread rest b

/-- The `query` field of the returned executor: `hasSelect` picks the
`select` shape (merging relation entries into the select map when there
are any), otherwise the `include` shape (empty when there are no
relation entries either). -/
def compileQuery (q : Query) : CompiledQuery :=
  let rels := relationEntries q
  if hasSelect q then
    if rels.length > 0 then .select (spread (selectEntries q) rels)
    else .select (selectEntries q)
  else
    if rels.length > 0 then .include_ rels
    else .include_ []

/-- `relationHasSelectOrInclude`: the value is a non-null object with a
`select` or `include` own-property. -/
def relHasSelectOrInclude : RelSpec → Bool
  | .bool _ => false
  | .select _ => true
  | .include_ _ => true

/-- Parser state while the relation loop runs: `(result, input)`. When
the query has a `select` clause the source sets `result = item`, so the
two components are one and the same object and every assignment mutates
the caller's input; without `select`, `result` is the fresh value the
model schema returned and the input is never written. -/
def PState : Type := JValue × JValue

/-- `result[key] = v`, mirrored onto the input component exactly when
`result` aliases it. -/
def assign (aliased : Bool) (st : PState) (key : String) (v : JValue) : PState :=
  (jSet st.1 key v, if aliased then jSet st.2 key v else st.2)

/-- `xs.map f` where `f` may throw: the first throwing element aborts
the whole map; elements after it are never touched and no partial list
escapes. -/
def mapElems (f : JValue → Except ZErr JValue) :
    List JValue → Except ZErr (List JValue)
  | [] => .ok []
  | x :: xs =>
      match f x with
      | .error e => .error e
      | .ok y =>
          match mapElems f xs with
          | .error e => .error e
          | .ok ys => .ok (y :: ys)

/-- The callback of the `Array.isArray` branch's `.map`: pass the
element through untouched when the relation spec carried
`select`/`include`, otherwise look up and run the target model schema
(`Model schema not found for relation` when it is absent). -/
def parseRelElem (cfg : RegistryConfig) (model key relationType : String)
    (skip : Bool) (rel : JValue) : Except ZErr JValue :=
  if skip then .ok rel
  else
    match lookupKey cfg.models relationType with
    | none => .error (.relationSchemaNotFound relationType key [model, key])
    | some schema => schema rel

/-- One iteration of `for (const [key, value] of Object.entries(query))`:
skip the `select` entry; skip keys absent from the input
(`key in item`); skip when the model has no relation map or the map has
no entry for `key` (falsy `relationType`, which also covers an empty
`type` string); then branch on the raw value — `Array.isArray` maps the
elements through `parseRelElem`, `null` is assigned directly, a
`select`/`include` spec passes the value through as-is, and otherwise
the target model schema validates it. The descriptor's `isArray` is
never consulted. Reads (`key in item`, `item[key]`) go to the live
input component: keys are pairwise distinct in a JS object, so a key is
never read after an earlier iteration wrote it. -/
def stepEntry (cfg : RegistryConfig) (model : String) (aliased : Bool)
    (st : PState) (key : String) (value : RelSpec) : Except ZErr PState :=
  if key = "select" then .ok st
  else
    match jGet st.2 key with
    | none => .ok st
    | some relData =>
      match lookupKey cfg.relations model with
      | none => .ok st
      | some modelRelations =>
        match lookupKey modelRelations key with
        | none => .ok st
        | some rc =>
          if rc.type = "" then .ok st
          else
            match relData with
            | .arr elems =>
                match mapElems
                    (parseRelElem cfg model key rc.type (relHasSelectOrInclude value))
                    elems with
                | .error e => .error e
                | .ok mapped => .ok (assign aliased st key (.arr mapped))
            | .null => .ok (assign aliased st key .null)
            | relData =>
                if relHasSelectOrInclude value then .ok (assign aliased st key relData)
                else
                  match lookupKey cfg.models rc.type with
                  | none =>
                      .error (.relationSchemaNotFound rc.type key [model, key])
                  | some schema =>
                      match schema relData with
                      | .error e => .error e
                      | .ok parsed => .ok (assign aliased st key parsed)

/-- The relation loop, entry by entry in insertion order. -/
def runEntries (cfg : RegistryConfig) (model : String) (aliased : Bool) :
    PState → List (String × RelSpec) → Except ZErr PState
  | st, [] => .ok st
  | st, e :: rest =>
      match stepEntry cfg model aliased st e.1 e.2 with
      | .error err => .error err
      | .ok st' => runEntries cfg model aliased st' rest

/-- The base object decision (the trust boundary): with `select`, the
input itself is taken as `result` (aliasing it — Prisma is trusted to
have returned the selected shape); without `select`, the model schema
runs (`Model schema not found` when absent) and its fresh output is the
base. -/
def baseResult (cfg : RegistryConfig) (model : String) (aliased : Bool)
    (item : JValue) : Except ZErr JValue :=
  if aliased then .ok item
  else
    match lookupKey cfg.models model with
    | none => .error (.schemaNotFound model)
    | some schema => schema item

/-- `parseRelations(item)`, instrumented to also return the final value
of the caller's input: reject non-object input; pick the base object per
the trust boundary; then run the relation loop. -/
def parseRelationsSt (cfg : RegistryConfig) (model : String) (q : Query)
    (item : JValue) : Except ZErr PState :=
  if ¬ isObjectLike item then
    .error (.invalidData model (receivedName item))
  else
    match baseResult cfg model (hasSelect q) item with
    | .error e => .error e
    | .ok base => runEntries cfg model (hasSelect q) (base, item) q.rels

/-- The value `parseRelations` returns. -/
def parseRelations (cfg : RegistryConfig) (model : String) (q : Query)
    (item : JValue) : Except ZErr JValue :=
  (parseRelationsSt cfg model q item).map (fun st => st.1)

/-- The caller's input as it stands after the call (it aliases the
result when the query carried `select`). -/
def rawAfter (cfg : RegistryConfig) (model : String) (q : Query)
    (item : JValue) : Except ZErr JValue :=
  (parseRelationsSt cfg model q item).map (fun st => st.2)

/-- `createParser(true)`: `arrayData.map(parseRelations)` — a thrown
error aborts the `map` at the failing element. -/
def createParserMany (cfg : RegistryConfig) (model : String) (q : Query) :
    List JValue → Except ZErr (List JValue)
  | [] => .ok []
  | x :: xs =>
      match parseRelations cfg model q x with
      | .error e => .error e
      | .ok y =>
          match createParserMany cfg model q xs with
          | .error e => .error e
          | .ok ys => .ok (y :: ys)

/-- `SafeParseResult<T>`. -/
inductive SafeParseResult (α : Type) where
  | success (data : α)
  | failure (error : ZErr)

/-- `safeParse`: run the parser inside `try`, boxing the outcome. -/
def safeParseOne (cfg : RegistryConfig) (model : String) (q : Query)
    (item : JValue) : SafeParseResult JValue :=
  match parseRelations cfg model q item with
  | .ok d => .success d
  | .error e => .failure e

/-- `array().safeParse`: the same `try` wrapper around the array parser. -/
def safeParseMany (cfg : RegistryConfig) (model : String) (q : Query)
    (items : List JValue) : SafeParseResult (List JValue) :=
  match createParserMany cfg model q items with
  | .ok d => .success d
  | .error e => .failure e

/-- The executor object a builder call returns. -/
structure QueryExecutor where
  query : CompiledQuery
  parse : JValue → Except ZErr JValue
  safeParse : JValue → SafeParseResult JValue
  arrayParse : List JValue → Except ZErr (List JValue)
  arraySafeParse : List JValue → SafeParseResult (List JValue)

/-- The body of the builder returned by `createQuery(model)`. -/
def buildExecutor (cfg : RegistryConfig) (model : String) (q : Query) :
    QueryExecutor where
  query := compileQuery q
  parse := parseRelations cfg model q
  safeParse := safeParseOne cfg model q
  arrayParse := createParserMany cfg model q
  arraySafeParse := safeParseMany cfg model q

/-- `createQuery(model)`: its body is a single `return` of the builder
closure — it contains no lookup, no check and no `throw`. The `Except`
layer records exactly which call-time failures are possible: none. -/
def createQuery (cfg : RegistryConfig) (model : String) :
    Except ZErr (Query → QueryExecutor) :=
  .ok (fun q => buildExecutor cfg model q)

/-- `Array.isArray`. -/
def JValue.isArr : JValue → Bool
  | .arr _ => true
  | _ => false

/-- `value === null`. -/
def JValue.isNull : JValue → Bool
  | .null => true
  | _ => false

/-! ## Concrete fixtures

Small registries and raw values used to evaluate the engine on the
inputs the claims are settled at. -/

/-- A model schema imitating a generated `z.object({ id: z.number() })`
with Zod's default strip behavior: it accepts any object carrying a
numeric `id` and returns a fresh `{id}` object, dropping every
undeclared key. -/
def idSchema : Validator := fun v =>
  match v with
  | .obj fs =>
      match lookupKey fs "id" with
      | some (.num n) => .ok (.obj [("id", .num n)])
      | _ => .error (.schemaReject "id: expected number")
  | _ => .error (.schemaReject "expected object")

/-- A schema rejecting every input. -/
def rejectAll : Validator := fun _ => .error (.schemaReject "rejected")

/-- A schema accepting every input unchanged. -/
def acceptAll : Validator := fun v => .ok v

/-- The `user` entity's relation map: one `posts` relation, cardinality
Many, targeting `post`. -/
def relUserPosts : List (String × RelationConfig) :=
  [("posts", .mk "post" true [])]

/-- A registry knowing only `user` (schema and relations). -/
def cfgOnlyUser : RegistryConfig where
  models := [("user", idSchema)]
  relations := [("user", relUserPosts)]

/-- A concrete spec: scalar fields `{id}` plus `posts: true`. -/
def qSelectIdPostsTrue : Query where
  select := some [("id", true)]
  rels := [("posts", .bool true)]

/-- A registry whose `post` schema rejects every value: the `user`
model's single `posts` relation (cardinality One here) targets it. -/
def cfgStrictPost : RegistryConfig where
  models := [("user", acceptAll), ("post", rejectAll)]
  relations := [("user", [("posts", .mk "post" false [])])]

/-- A raw `user` whose `posts` relation value would fail the `post`
schema. -/
def rawUserBadPost : JValue :=
  .obj [("id", .num 1), ("posts", .obj [("junk", .num 0)])]

/-- A registry whose `post` schema is the stripping `idSchema`; `user`
has one single-valued `post` relation targeting it. -/
def cfgStripPost : RegistryConfig where
  models := [("user", acceptAll), ("post", idSchema)]
  relations := [("user", [("post", .mk "post" false [])])]

/-- A spec selecting `{id}` and asking for the `post` relation in full
(`post: true`), so the target schema runs on the relation value. -/
def qSelectIdPostTrue : Query where
  select := some [("id", true)]
  rels := [("post", .bool true)]

/-- A raw `user` whose `post` relation value carries an undeclared
`junk` key the `post` schema strips. -/
def rawUserExtraPost : JValue :=
  .obj [("id", .num 1), ("post", .obj [("id", .num 2), ("junk", .num 3)])]

/-- `rawUserExtraPost` after the `post` schema replaced the relation
value with its stripped output. -/
def rawUserStrippedPost : JValue :=
  .obj [("id", .num 1), ("post", .obj [("id", .num 2)])]

/-- A registry where `user`'s `posts` relation is declared with
cardinality Many (`isArray: true`) targeting the stripping `post`
schema. -/
def cfgManyPosts : RegistryConfig where
  models := [("user", acceptAll), ("post", idSchema)]
  relations := [("user", relUserPosts)]

/-- A spec narrowing the Many relation `posts` with a nested `select`. -/
def qPostsNestedSelect : Query where
  select := some [("id", true)]
  rels := [("posts", .select [("title", true)])]

/-- A raw `user` whose `posts` value is a plain object, not a sequence,
despite the Many descriptor. -/
def rawManyNonArr : JValue :=
  .obj [("id", .num 1), ("posts", .obj [("x", .num 9)])]

/-- A raw `user` whose `posts` value is a one-element sequence whose
element carries an undeclared `junk` key. -/
def rawManyArrJunk : JValue :=
  .obj [("id", .num 1), ("posts", .arr [.obj [("id", .num 7), ("junk", .num 8)]])]

/-- A model registry whose every schema rejects every input. -/
def modelsRejectAll : List (String × Validator) :=
  [("user", rejectAll), ("post", rejectAll)]

/-- Relation map giving `user` one single-valued `post` relation. -/
def relsUserPostOne : List (String × List (String × RelationConfig)) :=
  [("user", [("post", .mk "post" false [])])]

/-- A raw `user` whose optional `post` relation is `null`. -/
def rawUserNullPost : JValue :=
  .obj [("id", .num 1), ("post", .null)]

/-! ## Helper lemmas -/

/-- Looking a non-`select` key up in the filtered relation entries is
looking it up in the full entry list. -/
theorem lookupKey_dropSelectKey (l : List (String × RelSpec)) (k : String)
    (hk : k ≠ "select") :
    lookupKey (dropSelectKey l) k = lookupKey l k := by
  induction l with
  | nil => rfl
  | cons p rest ih =>
      obtain ⟨a, w⟩ := p
      by_cases ha : a = "select"
      · have hka : ¬ k = a := fun h => hk (h.trans ha)
        rw [dropSelectKey, if_pos ha, lookupKey, if_neg hka]
        exact ih
      · rw [dropSelectKey, if_neg ha]
        by_cases hka : k = a
        · rw [lookupKey, if_pos hka, lookupKey, if_pos hka]
        · rw [lookupKey, if_neg hka, lookupKey, if_neg hka]
          exact ih

/-- If the right operand of a spread binds a key, the spread binds it to
that value. -/
theorem lookupKey_spread_right (a b : List (String × RelSpec)) (k : String)
    (v : RelSpec) (hb : lookupKey b k = some v) :
    lookupKey (spread a b) k = some v := by
  induction a with
  | nil => rw [spread]; exact hb
  | cons p rest ih =>
      obtain ⟨x, w⟩ := p
      rw [spread]
      cases hx : lookupKey b x with
      | none =>
          have hkx : ¬ k = x := fun h => by rw [h, hx] at hb; exact Option.noConfusion hb
          rw [lookupKey, if_neg hkx]
          exact ih
      | some u => exact ih

/-- A successful lookup forces a positive length. -/
theorem length_pos_of_lookupKey {α : Type} (l : List (String × α)) (k : String)
    (v : α) (h : lookupKey l k = some v) : l.length > 0 := by
  cases l with
  | nil => exact absurd h (by rw [lookupKey]; exact fun hc => Option.noConfusion hc)
  | cons p rest => simp

/-- A non-aliased loop iteration never writes the input component. -/
theorem stepEntry_snd (cfg : RegistryConfig) (model : String) (st : PState)
    (key : String) (value : RelSpec) (st' : PState)
    (h : stepEntry cfg model false st key value = .ok st') : st'.2 = st.2 := by
  unfold stepEntry at h
  repeat' split at h
  all_goals first
    | exact absurd h (fun hc => Except.noConfusion hc)
    | (injection h with h; rw [← h]; try rfl)

/-- A non-aliased relation loop never writes the input component. -/
theorem runEntries_snd (cfg : RegistryConfig) (model : String) :
    ∀ (es : List (String × RelSpec)) (st st' : PState),
      runEntries cfg model false st es = .ok st' → st'.2 = st.2 := by
  intro es
  induction es with
  | nil =>
      intro st st' h
      rw [runEntries] at h
      injection h with h
      rw [← h]
  | cons e rest ih =>
      intro st st' h
      rw [runEntries] at h
      cases hstep : stepEntry cfg model false st e.1 e.2 with
      | error err => rw [hstep] at h; exact absurd h (fun hc => Except.noConfusion hc)
      | ok stm =>
          rw [hstep] at h
          exact (ih stm st' h).trans (stepEntry_snd cfg model st e.1 e.2 stm hstep)

/-- `mapElems` only depends on the callback's behavior. -/
theorem mapElems_congr (f g : JValue → Except ZErr JValue) (xs : List JValue)
    (h : ∀ x, f x = g x) : mapElems f xs = mapElems g xs := by
  induction xs with
  | nil => rfl
  | cons x rest ih => rw [mapElems, mapElems, h x, ih]

/-- Parsing with a `select` clause and a single relation entry is one
loop iteration over the aliased state. -/
theorem parse_single_rel (cfg : RegistryConfig) (model : String)
    (sel : List (String × Bool)) (key : String) (spec : RelSpec) (item : JValue)
    (hobj : isObjectLike item = true) :
    parseRelations cfg model { select := some sel, rels := [(key, spec)] } item
      = (stepEntry cfg model true (item, item) key spec).map (fun st => st.1) := by
  unfold parseRelations parseRelationsSt baseResult hasSelect
  cases h : stepEntry cfg model true (item, item) key spec with
  | error e => simp [hobj, runEntries, h, Except.map]
  | ok st' => simp [hobj, runEntries, h, Except.map]

/-- A loop iteration whose relation spec carries `select` or `include`
assigns the non-null, non-array raw value untouched. -/
theorem stepEntry_skip (cfg : RegistryConfig) (model : String) (aliased : Bool)
    (st : PState) (key : String) (spec : RelSpec)
    (mr : List (String × RelationConfig)) (rc : RelationConfig) (v : JValue)
    (hskip : relHasSelectOrInclude spec = true) (hks : key ≠ "select")
    (hget : jGet st.2 key = some v) (harr : v.isArr = false)
    (hnull : v.isNull = false)
    (hrel : lookupKey cfg.relations model = some mr)
    (hkey : lookupKey mr key = some rc) (ht : rc.type ≠ "") :
    stepEntry cfg model aliased st key spec = .ok (assign aliased st key v) := by
  unfold stepEntry
  rw [if_neg hks]
  simp only [hget, hrel, hkey]
  rw [if_neg ht]
  cases v with
  | arr xs => exact absurd harr (by rw [JValue.isArr]; exact fun h => Bool.noConfusion h)
  | null => exact absurd hnull (by rw [JValue.isNull]; exact fun h => Bool.noConfusion h)
  | bool b => simp [hskip]
  | num n => simp [hskip]
  | str s => simp [hskip]
  | obj fs => simp [hskip]

/-- A loop iteration whose raw relation value is a sequence maps the
elements through `parseRelElem`, in order. -/
theorem stepEntry_arr (cfg : RegistryConfig) (model : String) (aliased : Bool)
    (st : PState) (key : String) (spec : RelSpec)
    (mr : List (String × RelationConfig)) (rc : RelationConfig) (xs : List JValue)
    (hks : key ≠ "select") (hget : jGet st.2 key = some (.arr xs))
    (hrel : lookupKey cfg.relations model = some mr)
    (hkey : lookupKey mr key = some rc) (ht : rc.type ≠ "") :
    stepEntry cfg model aliased st key spec
      = (mapElems (parseRelElem cfg model key rc.type (relHasSelectOrInclude spec)) xs).map
          (fun mapped => assign aliased st key (.arr mapped)) := by
  unfold stepEntry
  rw [if_neg hks]
  simp only [hget, hrel, hkey]
  rw [if_neg ht]
  cases h : mapElems (parseRelElem cfg model key rc.type (relHasSelectOrInclude spec)) xs with
  | error e => simp [h, Except.map]
  | ok mapped => simp [h, Except.map]

/-- A loop iteration whose raw relation value is `null` assigns `null`
directly, whatever the relation spec and the model registry. -/
theorem stepEntry_null (cfg : RegistryConfig) (model : String) (aliased : Bool)
    (st : PState) (key : String) (spec : RelSpec)
    (mr : List (String × RelationConfig)) (rc : RelationConfig)
    (hks : key ≠ "select") (hget : jGet st.2 key = some .null)
    (hrel : lookupKey cfg.relations model = some mr)
    (hkey : lookupKey mr key = some rc) (ht : rc.type ≠ "") :
    stepEntry cfg model aliased st key spec = .ok (assign aliased st key .null) := by
  unfold stepEntry
  rw [if_neg hks]
  simp only [hget, hrel, hkey]
  rw [if_neg ht]

/-! ## C3 — top-level tag of the compiled query -/

/-- C3 counterexample: a query whose `select` is the empty object
compiles to the `select` tag with an empty field set (the claim says an
empty field set never yields `select`), and the empty query — no fields,
no relations — compiles to `include`, not to the claimed `select`. -/
theorem c3_counterexample :
    compileQuery { select := some [], rels := [] } = .select [] ∧
    compileQuery { select := none, rels := [] } = .include_ [] :=
  ⟨rfl, rfl⟩

/-- C3 amended: the compiled query's top-level tag is `select` exactly
when the spec carries a `select` own-property (whose value, an object,
is truthy even when empty) — not when at least one scalar field was
declared; a spec with neither fields nor relations therefore compiles to
the `include` form. -/
theorem c3_select_tag_iff_select_key (q : Query) :
    (compileQuery q).isSelect = hasSelect q := by
  unfold compileQuery
  cases h : hasSelect q <;> simp [h] <;> split <;> rfl

/-! ## C4 — unknown relation names and the compiled query -/

/-- C4 counterexample: `ghost` is absent from the `user` relation
descriptor map, yet the compiled query for `{ghost: true}` carries a
`ghost` entry — compilation copies every non-`select` key verbatim and
never consults the descriptor map. -/
theorem c4_counterexample :
    lookupKey relUserPosts "ghost" = none ∧
    lookupKey (compileQuery { select := none, rels := [("ghost", .bool true)] }).entries "ghost"
      = some (.bool true) :=
  ⟨rfl, rfl⟩

/-- C4 amended: every non-`select` entry of the spec reappears verbatim
(same key, same value, nested levels included) in the compiled query's
entry map — compilation takes no relation-descriptor input at all, so
unknown names and over-deep nesting are not dropped from the compiled
query; they are ignored only by parse-time traversal. -/
theorem c4_spec_entries_survive_compilation (q : Query) (k : String) (v : RelSpec)
    (hk : k ≠ "select") (hv : lookupKey q.rels k = some v) :
    lookupKey (compileQuery q).entries k = some v := by
  have hrel : lookupKey (relationEntries q) k = some v :=
    (lookupKey_dropSelectKey q.rels k hk).trans hv
  have hpos : (relationEntries q).length > 0 :=
    length_pos_of_lookupKey _ k v hrel
  unfold compileQuery
  cases h : hasSelect q
  · simp only [h, Bool.false_eq_true, if_false, hpos, if_true, CompiledQuery.entries]
    exact hrel
  · simp only [h, if_true, hpos, CompiledQuery.entries]
    exact lookupKey_spread_right _ _ k v hrel

/-- Witness for C4: the known `posts: true` entry of a concrete spec
survives into the compiled query. -/
theorem c4_spec_entries_survive_compilation_witness :
    lookupKey (compileQuery qSelectIdPostsTrue).entries "posts" = some (.bool true) :=
  c4_spec_entries_survive_compilation qSelectIdPostsTrue
    "posts" (.bool true) (by decide) rfl

/-! ## C1 — no eager validation in `createQuery` -/

/-- C1 counterexample: `ghost` is absent from both the model registry
and the relation map of `cfgOnlyUser`, yet `createQuery` succeeds — it
returns the builder closure, raising nothing at call time — and a
subsequent `parse` with a `select` query even succeeds, so the unknown
entity is never reported at all on that path. -/
theorem c1_counterexample :
    createQuery cfgOnlyUser "ghost"
      = .ok (fun q => buildExecutor cfgOnlyUser "ghost" q) ∧
    parseRelations cfgOnlyUser "ghost" { select := some [("id", true)], rels := [] }
      (.obj [("id", .num 1)]) = .ok (.obj [("id", .num 1)]) :=
  ⟨rfl, rfl⟩

/-- C1 amended: `createQuery` performs no validation at call time for
any entity id — it always returns the builder. An entity absent from the
model registry surfaces only lazily, at parse time, and only when the
query has no `select` clause, as a `Model schema not found` error;
absence from the relation map alone is never reported. -/
theorem c1_createQuery_is_lazy (cfg : RegistryConfig) (model : String)
    (q : Query) (item : JValue)
    (hm : lookupKey cfg.models model = none) (hs : q.select = none)
    (hobj : isObjectLike item = true) :
    createQuery cfg model = .ok (fun qq => buildExecutor cfg model qq) ∧
    parseRelations cfg model q item = .error (.schemaNotFound model) := by
  refine ⟨rfl, ?_⟩
  unfold parseRelations parseRelationsSt baseResult hasSelect
  simp [hm, hs, hobj, Except.map]

/-- Witness for C1: a registry knowing only `user`, asked about `ghost`
with a selection-free query on an object input. -/
theorem c1_createQuery_is_lazy_witness :
    createQuery cfgOnlyUser "ghost"
      = .ok (fun qq => buildExecutor cfgOnlyUser "ghost" qq) ∧
    parseRelations cfgOnlyUser "ghost" { select := none, rels := [] } (.obj [])
      = .error (.schemaNotFound "ghost") :=
  c1_createQuery_is_lazy cfgOnlyUser "ghost" { select := none, rels := [] }
    (.obj []) rfl rfl rfl

/-! ## C2 — the `include` form skips the target validator -/

/-- C2 counterexample: the `posts` spec carries nested relations (the
`include` form, no field narrowing), its raw value is rejected by the
`post` schema, and yet `parse` succeeds, returning the raw value
untouched — the validator is skipped for the `include` form exactly as
for `select`, not invoked as the claim states. -/
theorem c2_counterexample :
    rejectAll (.obj [("junk", .num 0)]) = .error (.schemaReject "rejected") ∧
    parseRelations cfgStrictPost "user"
      { select := some [("id", true)],
        rels := [("posts", .include_ [("author", .bool true)])] }
      rawUserBadPost = .ok rawUserBadPost :=
  ⟨rfl, rfl⟩

/-- C2 amended: when a relation's spec is an object carrying `select`
or `include`, `parse` assigns the relation's raw value as-is, invoking
no validator (the result is the same for every model registry); the
target entity's full validator runs only when the relation spec is a
boolean. Stated for a single-relation query with a `select` clause and a
non-null, non-array raw relation value. -/
theorem c2_include_form_skips_validator (cfg : RegistryConfig) (model : String)
    (sel : List (String × Bool)) (key : String) (spec : RelSpec)
    (mr : List (String × RelationConfig)) (rc : RelationConfig)
    (item v : JValue)
    (hskip : relHasSelectOrInclude spec = true) (hks : key ≠ "select")
    (hrel : lookupKey cfg.relations model = some mr)
    (hkey : lookupKey mr key = some rc) (ht : rc.type ≠ "")
    (hget : jGet item key = some v)
    (harr : v.isArr = false) (hnull : v.isNull = false)
    (hobj : isObjectLike item = true) :
    parseRelations cfg model { select := some sel, rels := [(key, spec)] } item
      = .ok (jSet item key v) := by
  unfold parseRelations parseRelationsSt baseResult hasSelect
  simp only [Option.isSome_some, hobj, Bool.not_true, Bool.false_eq_true,
    if_false, if_true]
  rw [runEntries]
  rw [stepEntry]
  rw [if_neg hks]
  simp only [hget, hrel, hkey]
  rw [if_neg ht]
  cases v with
  | arr xs => exact absurd harr (by rw [JValue.isArr]; exact fun h => Bool.noConfusion h)
  | null => exact absurd hnull (by rw [JValue.isNull]; exact fun h => Bool.noConfusion h)
  | bool b => simp [hskip, runEntries, assign, Except.map]
  | num n => simp [hskip, runEntries, assign, Except.map]
  | str s => simp [hskip, runEntries, assign, Except.map]
  | obj fs => simp [hskip, runEntries, assign, Except.map]

/-- Witness for C2: the concrete strict-post registry and raw value of
the counterexample, through the amended theorem. -/
theorem c2_include_form_skips_validator_witness :
    parseRelations cfgStrictPost "user"
      { select := some [("id", true)],
        rels := [("posts", .include_ [("author", .bool true)])] }
      rawUserBadPost
      = .ok (jSet rawUserBadPost "posts" (.obj [("junk", .num 0)])) :=
  c2_include_form_skips_validator cfgStrictPost "user" [("id", true)] "posts"
    (.include_ [("author", .bool true)]) [("posts", .mk "post" false [])]
    (.mk "post" false []) rawUserBadPost (.obj [("junk", .num 0)])
    rfl (by decide) rfl rfl (by decide) rfl rfl rfl rfl

/-! ## C5 — whether parsing leaves the raw input unchanged -/

/-- C5 counterexample: with a `select` clause the result aliases the raw
input, so the full-validation path for `post: true` writes the schema's
stripped output back into the caller's value — after the call the raw
input's `post` key has lost its `junk` field, so the input did not hold
the same value at every key. -/
theorem c5_counterexample :
    rawAfter cfgStripPost "user" qSelectIdPostTrue rawUserExtraPost
      = .ok rawUserStrippedPost ∧
    (jGet rawUserExtraPost "post").bind (fun v => jGet v "junk") = some (.num 3) ∧
    (jGet rawUserStrippedPost "post").bind (fun v => jGet v "junk") = none ∧
    (jGet rawUserStrippedPost "post").bind (fun v => jGet v "junk")
      ≠ (jGet rawUserExtraPost "post").bind (fun v => jGet v "junk") :=
  ⟨rfl, rfl, rfl, fun h => Option.noConfusion h⟩

/-- C5 amended: reshaping mutates the raw input exactly when the spec
carries a `select` clause (the base object then aliases the input and
every relation assignment writes through); without a `select` clause the
raw input still holds its original value after the call, whatever the
outcome. -/
theorem c5_raw_untouched_without_select (cfg : RegistryConfig) (model : String)
    (q : Query) (item : JValue) (hs : q.select = none) :
    rawAfter cfg model q item
      = (parseRelations cfg model q item).map (fun _ => item) := by
  have ha : hasSelect q = false := by rw [hasSelect, hs]; rfl
  unfold rawAfter parseRelations parseRelationsSt
  rw [ha]
  cases hobj : isObjectLike item with
  | false => simp [hobj, Except.map]
  | true =>
      simp only [hobj, not_true, Bool.not_true, Bool.false_eq_true, if_false]
      cases hbase : baseResult cfg model false item with
      | error e => simp [Except.map]
      | ok base =>
          cases hrun : runEntries cfg model false (base, item) q.rels with
          | error e => simp [hrun, Except.map]
          | ok st' =>
              simp only [hrun, Except.map]
              rw [runEntries_snd cfg model q.rels (base, item) st' hrun]

/-- Witness for C5: a selection-free parse of a valid `user` leaves the
input value intact. -/
theorem c5_raw_untouched_without_select_witness :
    rawAfter cfgOnlyUser "user" { select := none, rels := [] }
      (.obj [("id", .num 1)]) = .ok (.obj [("id", .num 1)]) :=
  (c5_raw_untouched_without_select cfgOnlyUser "user"
    { select := none, rels := [] } (.obj [("id", .num 1)]) rfl).trans rfl

/-! ## C6 — Many relations and non-sequence raw values -/

/-- C6 counterexample: the `posts` descriptor declares cardinality Many,
the raw `posts` value is a plain object (not a sequence), yet `parse`
succeeds, assigning it as-is — no shape error is raised, because the
parser branches on `Array.isArray` of the raw value and never reads the
descriptor's cardinality. -/
theorem c6_counterexample :
    ((lookupKey cfgManyPosts.relations "user").bind
        (fun mr => lookupKey mr "posts")).map RelationConfig.isArray = some true ∧
    parseRelations cfgManyPosts "user" qPostsNestedSelect rawManyNonArr
      = .ok rawManyNonArr :=
  ⟨rfl, rfl⟩

/-- C6 amended: the parser never consults the descriptor's cardinality;
it branches on the raw value. Under a Many descriptor, a non-sequence
raw value takes the single-value path (here: a `select` spec assigns it
untouched, no error), while a sequence raw value is mapped element by
element in original order (full target-schema validation when the spec
is a boolean). -/
theorem c6_parse_branches_on_raw_shape (cfg : RegistryConfig) (model : String)
    (sel : List (String × Bool)) (key : String) (fields : List (String × Bool))
    (b : Bool) (mr : List (String × RelationConfig)) (rc : RelationConfig)
    (item v : JValue) (xs : List JValue) (schema : Validator)
    (hks : key ≠ "select") (hrel : lookupKey cfg.relations model = some mr)
    (hkey : lookupKey mr key = some rc) (hmany : rc.isArray = true)
    (ht : rc.type ≠ "") (hobj : isObjectLike item = true) :
    (jGet item key = some v → v.isArr = false → v.isNull = false →
      parseRelations cfg model { select := some sel, rels := [(key, .select fields)] } item
        = .ok (jSet item key v)) ∧
    (jGet item key = some (.arr xs) → lookupKey cfg.models rc.type = some schema →
      parseRelations cfg model { select := some sel, rels := [(key, .bool b)] } item
        = (mapElems schema xs).map (fun ys => jSet item key (.arr ys))) := by
  constructor
  · intro hget harr hnull
    rw [parse_single_rel cfg model sel key (.select fields) item hobj]
    rw [stepEntry_skip cfg model true (item, item) key (.select fields) mr rc v
      rfl hks hget harr hnull hrel hkey ht]
    rfl
  · intro hget hschema
    rw [parse_single_rel cfg model sel key (.bool b) item hobj]
    rw [stepEntry_arr cfg model true (item, item) key (.bool b) mr rc xs
      hks hget hrel hkey ht]
    rw [mapElems_congr (parseRelElem cfg model key rc.type
        (relHasSelectOrInclude (.bool b))) schema xs
      (fun r => by unfold parseRelElem relHasSelectOrInclude; simp [hschema])]
    cases mapElems schema xs <;> rfl

/-- Witness for C6: the Many-descriptor registry, once with a
non-sequence raw value (assigned untouched), once with a sequence (each
element passed through the stripping `post` schema in order). -/
theorem c6_parse_branches_on_raw_shape_witness :
    parseRelations cfgManyPosts "user" qPostsNestedSelect rawManyNonArr
      = .ok rawManyNonArr ∧
    parseRelations cfgManyPosts "user" qSelectIdPostsTrue rawManyArrJunk
      = .ok (.obj [("id", .num 1), ("posts", .arr [.obj [("id", .num 7)]])]) := by
  constructor
  · exact ((c6_parse_branches_on_raw_shape cfgManyPosts "user" [("id", true)] "posts"
      [("title", true)] true relUserPosts (.mk "post" true []) rawManyNonArr
      (.obj [("x", .num 9)]) [] idSchema (by decide) rfl rfl rfl (by decide) rfl).1
      rfl rfl rfl).trans rfl
  · exact ((c6_parse_branches_on_raw_shape cfgManyPosts "user" [("id", true)] "posts"
      [("title", true)] true relUserPosts (.mk "post" true []) rawManyArrJunk
      (.obj [("x", .num 9)]) [.obj [("id", .num 7), ("junk", .num 8)]] idSchema
      (by decide) rfl rfl rfl (by decide) rfl).2 rfl rfl).trans rfl

/-! ## C7 — short-circuit of `array().parse` -/

/-- C7: when every element before position k parses and element k
throws, `array().parse` returns exactly element k's error: the elements
after k are never processed (the outcome is the same for every tail
`ys`) and the error value carries no partial results. -/
theorem c7_array_parse_short_circuits (cfg : RegistryConfig) (model : String)
    (q : Query) (xs : List JValue) (y : JValue) (ys : List JValue) (e : ZErr)
    (hok : ∀ x ∈ xs, ∃ r, parseRelations cfg model q x = .ok r)
    (hbad : parseRelations cfg model q y = .error e) :
    createParserMany cfg model q (xs ++ y :: ys) = .error e := by
  induction xs with
  | nil => rw [List.nil_append, createParserMany, hbad]
  | cons a rest ih =>
      obtain ⟨r, hr⟩ := hok a (List.mem_cons_self a rest)
      rw [List.cons_append, createParserMany, hr,
        ih (fun x hx => hok x (List.mem_cons_of_mem a hx))]

/-- Witness for C7: a valid element followed by a `null` element and an
untouched garbage tail; the call returns the second element's shape
error. -/
theorem c7_array_parse_short_circuits_witness :
    createParserMany cfgOnlyUser "user" { select := none, rels := [] }
      [.obj [("id", .num 1)], .null, .num 5]
      = .error (.invalidData "user" "null") :=
  c7_array_parse_short_circuits cfgOnlyUser "user" { select := none, rels := [] }
    [.obj [("id", .num 1)]] .null [.num 5] (.invalidData "user" "null")
    (by
      intro x hx
      rw [List.mem_singleton] at hx
      subst hx
      exact ⟨.obj [("id", .num 1)], rfl⟩)
    rfl

/-! ## C8 — `safeParse` mirrors `parse` exactly -/

/-- C8: `safeParse` and `array().safeParse` are total functions (the
embedding's type records that they never throw) returning `success d`
exactly when the corresponding `parse` returns `d`, and `failure e`
exactly when it throws `e` — never a partially populated success. -/
theorem c8_safeParse_mirrors_parse (cfg : RegistryConfig) (model : String)
    (q : Query) (item : JValue) (items : List JValue) :
    (∀ d, safeParseOne cfg model q item = .success d ↔
      parseRelations cfg model q item = .ok d) ∧
    (∀ e, safeParseOne cfg model q item = .failure e ↔
      parseRelations cfg model q item = .error e) ∧
    (∀ ds, safeParseMany cfg model q items = .success ds ↔
      createParserMany cfg model q items = .ok ds) ∧
    (∀ e, safeParseMany cfg model q items = .failure e ↔
      createParserMany cfg model q items = .error e) := by
  unfold safeParseOne safeParseMany
  cases h1 : parseRelations cfg model q item <;>
    cases h2 : createParserMany cfg model q items <;>
      simp [h1, h2]

/-! ## C9 — `null` at a single-valued relation key -/

/-- C9: for a single-valued (`isArray: false`) relation declared in the
query whose raw value is `null`, parsing succeeds with `null` assigned
at that key, for every model registry (so no validator can have been
invoked) and for every nested relation spec. Optionality is not even
represented in `RelationConfig`; the property holds for all
single-valued relations, in particular optional ones. -/
theorem c9_null_relation_assigned_directly (models : List (String × Validator))
    (rels : List (String × List (String × RelationConfig))) (model : String)
    (mr : List (String × RelationConfig)) (key : String) (rc : RelationConfig)
    (sel : List (String × Bool)) (spec : RelSpec) (item : JValue)
    (hrel : lookupKey rels model = some mr) (hkey : lookupKey mr key = some rc)
    (hone : rc.isArray = false) (ht : rc.type ≠ "") (hks : key ≠ "select")
    (hget : jGet item key = some .null) (hobj : isObjectLike item = true) :
    parseRelations ⟨models, rels⟩ model
      { select := some sel, rels := [(key, spec)] } item
      = .ok (jSet item key .null) := by
  rw [parse_single_rel ⟨models, rels⟩ model sel key spec item hobj,
    stepEntry_null ⟨models, rels⟩ model true (item, item) key spec mr rc
      hks hget hrel hkey ht]
  rfl

/-- Witness for C9: every validator rejects everything, the nested spec
is an `include`, and still the `null` relation parses to `null`. -/
theorem c9_null_relation_assigned_directly_witness :
    parseRelations ⟨modelsRejectAll, relsUserPostOne⟩ "user"
      { select := some [("id", true)],
        rels := [("post", .include_ [("x", .bool true)])] }
      rawUserNullPost = .ok rawUserNullPost :=
  (c9_null_relation_assigned_directly modelsRejectAll relsUserPostOne "user"
    [("post", .mk "post" false [])] "post" (.mk "post" false [])
    [("id", true)] (.include_ [("x", .bool true)]) rawUserNullPost
    rfl rfl rfl (by decide) (by decide) rfl rfl).trans rfl

/-! ## C10 — relation names missing from the model's relation metadata -/

/-- C10: a relation entry whose key has no descriptor in the model's
relation metadata (or whose model has no relation map at all) is a
parse-time no-op: the loop iteration returns the state unchanged — no
error, and no validation of that key's raw value (the registry's
validators never enter the result) — and a whole parse over such a
single-entry query returns the input as-is. -/
theorem c10_unknown_relation_is_noop (cfg : RegistryConfig) (model : String)
    (aliased : Bool) (st : PState) (key : String) (spec : RelSpec)
    (sel : List (String × Bool)) (item : JValue)
    (hmiss : ((lookupKey cfg.relations model).bind fun mr => lookupKey mr key) = none)
    (hobj : isObjectLike item = true) :
    stepEntry cfg model aliased st key spec = .ok st ∧
    parseRelations cfg model { select := some sel, rels := [(key, spec)] } item
      = .ok item := by
  have hstep : ∀ (al : Bool) (st0 : PState),
      stepEntry cfg model al st0 key spec = .ok st0 := by
    intro al st0
    unfold stepEntry
    by_cases hks : key = "select"
    · rw [if_pos hks]
    · rw [if_neg hks]
      cases hget : jGet st0.2 key with
      | none => rfl
      | some relData =>
          cases hrel : lookupKey cfg.relations model with
          | none => simp [hrel]
          | some mr =>
              have hnone : lookupKey mr key = none := by
                rw [hrel] at hmiss
                simpa using hmiss
              simp [hrel, hnone]
  refine ⟨hstep aliased st, ?_⟩
  rw [parse_single_rel cfg model sel key spec item hobj, hstep true (item, item)]
  rfl

/-- Witness for C10: a `ghost` entry over a registry that has relation
metadata for `user` but no `ghost` descriptor; the garbage raw value at
`ghost` is passed through untouched even though every validator
rejects. -/
theorem c10_unknown_relation_is_noop_witness :
    stepEntry ⟨modelsRejectAll, relsUserPostOne⟩ "user" true
      (rawUserNullPost, rawUserNullPost) "ghost" (.bool true)
      = .ok (rawUserNullPost, rawUserNullPost) ∧
    parseRelations ⟨modelsRejectAll, relsUserPostOne⟩ "user"
      { select := some [("id", true)], rels := [("ghost", .bool true)] }
      (.obj [("id", .num 1), ("ghost", .str "junk")])
      = .ok (.obj [("id", .num 1), ("ghost", .str "junk")]) :=
  c10_unknown_relation_is_noop ⟨modelsRejectAll, relsUserPostOne⟩ "user" true
    (rawUserNullPost, rawUserNullPost) "ghost" (.bool true) [("id", true)]
    (.obj [("id", .num 1), ("ghost", .str "junk")]) rfl rfl

end Zodipus
